import Mathlib

/-!
Verification of the camera-recording index server (`web_app/main.py`).

Strings are modelled as `List Char`.  Paths are POSIX (`os.sep = '/'`, the
deployment platform of the source).  `datetime` instants are placed on a
single integer timeline: a `datetime` value is represented by its number of
microseconds since 0001-01-01 00:00:00 (`datetime` has exactly microsecond
resolution, so this representation is exact), which is order-isomorphic to
Python `datetime` comparison, and `isoformat` string comparison agrees with
it for the formats the program produces.  Python
`\d` is modelled as the ASCII digits, `str.lower` as ASCII lowering, the
file inputs of interest being ASCII.
-/

/-- Strings as lists of characters. -/
abbrev Str := List Char

/-- Convert a Lean string literal to the `List Char` representation. -/
def str (s : String) : Str := s.data

/-- Last character of a string, `none` when empty. -/
def lastCh : Str → Option Char
  | [] => none
  | [c] => some c
  | _ :: c :: cs => lastCh (c :: cs)

/-- `'/' ∉ l`, as a Boolean. -/
def noSlash (l : Str) : Bool := decide ('/' ∉ l)

/-- Python `s.replace('/', '__')` (single-character needle). -/
def encSep : Str → Str
  | [] => []
  | c :: cs => if c = '/' then '_' :: '_' :: encSep cs else c :: encSep cs

/-- Python `s.replace('__', '/')`: left-to-right, non-overlapping scan. -/
def decSep : Str → Str
  | [] => []
  | [c] => [c]
  | c1 :: c2 :: cs =>
    if c1 = '_' ∧ c2 = '_' then '/' :: decSep cs else c1 :: decSep (c2 :: cs)

/-- Whether the string contains two consecutive underscores. -/
def hasDU : Str → Bool
  | [] => false
  | [_] => false
  | c1 :: c2 :: cs => if c1 = '_' ∧ c2 = '_' then true else hasDU (c2 :: cs)

/-- POSIX `os.path.join` for two components. -/
def osJoin (a b : Str) : Str :=
  if b.head? = some '/' then b
  else if a = [] then b
  else if lastCh a = some '/' then a ++ b
  else a ++ '/' :: b

/-- `strStarts p s` holds when `s` begins with `p`. -/
def strStarts : Str → Str → Bool
  | [], _ => true
  | _ :: _, [] => false
  | a :: ps, b :: ss => a == b && strStarts ps ss

/-- `p` is `root` itself or lexically inside the directory `root`. -/
def underRoot (root p : Str) : Bool :=
  strStarts (root ++ ['/']) p || p == root

/-- Characters after the last `'/'` (POSIX `os.path.basename`, and the last
element of `split('/')`). -/
def afterLastSlash (s : Str) : Str :=
  s.foldl (fun acc c => if c = '/' then [] else acc ++ [c]) []

/-- Match of `re.match(r"(Cam\d+)_(\d{4}-\d{2}-\d{2})", folder)`: anchored at
the start, `\d+` takes the maximal digit run (backtracking cannot produce any
other match because a shorter run puts a digit where `_` is required).
Returns `(group 1, group 2)`.  `camTail` handles the part after the literal
`Cam`: `\d+` (nonempty digit run), `_`, and the `\d{4}-\d{2}-\d{2}` date. -/
def camTail (rest : Str) : Option (Str × Str) :=
  if rest.takeWhile Char.isDigit = [] then none
  else
    match rest.dropWhile Char.isDigit with
    | u :: a1 :: a2 :: a3 :: a4 :: p1 :: b1 :: b2 :: p2 :: c1 :: c2 :: _ =>
      if u = '_' ∧ a1.isDigit ∧ a2.isDigit ∧ a3.isDigit ∧ a4.isDigit ∧ p1 = '-' ∧
         b1.isDigit ∧ b2.isDigit ∧ p2 = '-' ∧ c1.isDigit ∧ c2.isDigit
      then some ('C' :: 'a' :: 'm' :: rest.takeWhile Char.isDigit,
                 [a1, a2, a3, a4, p1, b1, b2, p2, c1, c2])
      else none
    | _ => none

def folderMatch (folder : Str) : Option (Str × Str) :=
  if strStarts ['C', 'a', 'm'] folder then camTail (folder.drop 3) else none

/-- Match of `(\d{4}-\d{2}-\d{2})_(\d{2}-\d{2}-\d{2})` at the start of the
string; returns the two groups. -/
def tsAt : Str → Option (Str × Str)
  | y1 :: y2 :: y3 :: y4 :: p1 :: a1 :: a2 :: p2 :: b1 :: b2 :: u ::
      c1 :: c2 :: p3 :: d1 :: d2 :: p4 :: e1 :: e2 :: _ =>
    if y1.isDigit && y2.isDigit && y3.isDigit && y4.isDigit && p1 == '-' &&
       a1.isDigit && a2.isDigit && p2 == '-' && b1.isDigit && b2.isDigit &&
       u == '_' && c1.isDigit && c2.isDigit && p3 == '-' && d1.isDigit &&
       d2.isDigit && p4 == '-' && e1.isDigit && e2.isDigit
    then some ([y1, y2, y3, y4, p1, a1, a2, p2, b1, b2],
               [c1, c2, p3, d1, d2, p4, e1, e2])
    else none
  | _ => none

/-- `re.search` for the timestamp pattern: leftmost match. -/
def tsSearch : Str → Option (Str × Str)
  | [] => none
  | c :: cs =>
    match tsAt (c :: cs) with
    | some r => some r
    | none => tsSearch cs

/-- Python `time_part.replace('-', ':')`. -/
def hyColon (l : Str) : Str := l.map (fun c => if c = '-' then ':' else c)

/-- A validated `datetime` (second precision). -/
structure DT6 where
  y : Nat
  mo : Nat
  d : Nat
  hh : Nat
  mi : Nat
  ss : Nat
deriving DecidableEq

/-- Gregorian leap year. -/
def isLeap (y : Nat) : Bool := (y % 4 == 0 && y % 100 != 0) || y % 400 == 0

/-- Number of days of month `m` of year `y`. -/
def daysInMonth (y m : Nat) : Nat :=
  if m = 2 then (if isLeap y then 29 else 28)
  else if m = 4 ∨ m = 6 ∨ m = 9 ∨ m = 11 then 30
  else 31

/-- The `datetime` constructor's validation (raises `ValueError`, i.e.
`none`, out of range). -/
def mkDatetime (y mo d hh mi ss : Nat) : Option DT6 :=
  if 1 ≤ y ∧ y ≤ 9999 ∧ 1 ≤ mo ∧ mo ≤ 12 ∧ 1 ≤ d ∧ d ≤ daysInMonth y mo ∧
     hh ≤ 23 ∧ mi ≤ 59 ∧ ss ≤ 59
  then some ⟨y, mo, d, hh, mi, ss⟩ else none

/-- Two decimal digits to a number. -/
def num2 (a b : Char) : Nat := 10 * (a.toNat - 48) + (b.toNat - 48)

/-- Four decimal digits to a number. -/
def num4 (a b c d : Char) : Nat :=
  1000 * (a.toNat - 48) + 100 * (b.toNat - 48) + 10 * (c.toNat - 48) + (d.toNat - 48)

/-- `datetime.strptime(s, "%Y-%m-%d %H:%M:%S")` on the 19-character strings
the program builds (the regex groups guarantee the digit/separator shape, so
the fixed-width form of `%Y` is exact here). -/
def strptimeFull (s : Str) : Option DT6 :=
  match s with
  | [y1, y2, y3, y4, p1, a1, a2, p2, b1, b2, sp, c1, c2, q1, d1, d2, q2, e1, e2] =>
    if y1.isDigit && y2.isDigit && y3.isDigit && y4.isDigit && p1 == '-' &&
       a1.isDigit && a2.isDigit && p2 == '-' && b1.isDigit && b2.isDigit &&
       sp == ' ' && c1.isDigit && c2.isDigit && q1 == ':' && d1.isDigit &&
       d2.isDigit && q2 == ':' && e1.isDigit && e2.isDigit
    then mkDatetime (num4 y1 y2 y3 y4) (num2 a1 a2) (num2 b1 b2)
                    (num2 c1 c2) (num2 d1 d2) (num2 e1 e2)
    else none
  | _ => none

/-- Days before month `m` in a non-leap year. -/
def cumDays (m : Nat) : Nat :=
  match m with
  | 1 => 0 | 2 => 31 | 3 => 59 | 4 => 90 | 5 => 120 | 6 => 151
  | 7 => 181 | 8 => 212 | 9 => 243 | 10 => 273 | 11 => 304 | _ => 334

/-- Seconds since 0001-01-01 00:00:00 of a `datetime`, the timeline position
used for all `datetime` comparisons and `timedelta` arithmetic. -/
def toSecs (t : DT6) : Nat :=
  let leapAdd := if 2 < t.mo && isLeap t.y then 1 else 0
  let days := 365 * (t.y - 1) + ((t.y - 1) / 4 - (t.y - 1) / 100 + (t.y - 1) / 400) +
    cumDays t.mo + leapAdd + (t.d - 1)
  days * 86400 + t.hh * 3600 + t.mi * 60 + t.ss

/-- The record built by `extract_info_from_path`. -/
structure VideoRec where
  camera_id : Str
  date : Str
  timestamp : Int
  filename : Str
  unique_path : Str
  full_path : Str
deriving DecidableEq

/-- `extract_info_from_path`, specialised to the two-segment paths
`root/folder/file` produced by the scan's glob (for those, `os.path.relpath`
and `os.path.basename` recover exactly `folder` and `file`).  `mtime` is the
timeline position of `datetime.fromtimestamp(os.path.getmtime(...))`.  A
`ValueError` from `strptime` is caught by the `except` and yields `None`. -/
def extract_info_from_path (root folder file : Str) (mtime : Int) : Option VideoRec :=
  match folderMatch folder with
  | none => none
  | some (cid, dstr) =>
    match tsSearch file with
    | some (dpart, tpart) =>
      match strptimeFull (dpart ++ ' ' :: hyColon tpart) with
      | some dt =>
        some ⟨cid, dstr, (toSecs dt : Int) * 1000000, file,
              encSep (osJoin folder file), osJoin (osJoin root folder) file⟩
      | none => none
    | none =>
      some ⟨cid, dstr, mtime, file,
            encSep (osJoin folder file), osJoin (osJoin root folder) file⟩

/-- `round(size / (1024*1024), 2)` in hundredths of a megabyte: exact
half-to-even rounding of the rational `size/2^20` to 2 decimals, scaled by
100 so the value is an integer (the binary floating-point representation
wobble of the source's `float` is not modelled — no claim depends on
`size_mb`). -/
def sizeMb100 (size : Nat) : Nat :=
  let t := 100 * size
  let n := t / 1048576
  let r := t % 1048576
  if r < 524288 then n
  else if 524288 < r then n + 1
  else if n % 2 = 0 then n else n + 1

/-- One file seen by the scan: an immediate child directory `folder` of the
root containing the regular file `file`; `mtime` is the timeline position of
`datetime.fromtimestamp` of its modification time, `size` its byte size. -/
structure Entry where
  folder : Str
  file : Str
  mtime : Int
  size : Nat
deriving DecidableEq

/-- The filesystem as the program observes it.  `rootExists` is whether the
glob over `VIDEO_ROOT_DIR` can enumerate anything (`glob.glob` yields `[]`
for a missing or unreadable root, raising nothing); `listing` is the
two-level directory tree in OS enumeration order; `isFile` is the result of
`os.path.exists(p) and os.path.isfile(p)` on an arbitrary path string. -/
structure FS where
  rootExists : Bool
  listing : List Entry
  isFile : Str → Bool

/-- Glob match of a folder name against `Cam*_????-??-??` (`*`/`?` match any
characters of a directory entry name; the literal `Cam` head makes the
hidden-file rule moot). -/
def glob_folder_ok (name : Str) : Bool :=
  match name with
  | 'C' :: 'a' :: 'm' :: rest =>
    match rest.drop (rest.length - 11) with
    | [u, _, _, _, _, p1, _, _, p2, _, _] => u == '_' && p1 == '-' && p2 == '-'
    | _ => false
  | _ => false

/-- Glob match of a file name against `*.mp4` (glob's `*` does not match a
leading dot). -/
def glob_file_ok (name : Str) : Bool :=
  (match name.drop (name.length - 4) with
   | ['.', 'm', 'p', '4'] => true
   | _ => false) && decide (name.head? ≠ some '.')

/-- A scanned record: the extracted info plus the fields
`find_all_video_files` adds (`size_mb`; `timestamp_iso` is represented by
`info.timestamp` itself, the ISO string being order-isomorphic to it). -/
structure ScanRec where
  info : VideoRec
  size_mb100 : Nat
deriving DecidableEq

/-- `find_all_video_files`: glob for `Cam*_????-??-??/*.mp4` under the root,
extract info per file, keep the non-`None` results (`if video_data:`). -/
def find_all_video_files (fs : FS) (root : Str) : List ScanRec :=
  if fs.rootExists then
    (fs.listing.filter (fun e => glob_folder_ok e.folder && glob_file_ok e.file)).filterMap
      (fun e => (extract_info_from_path root e.folder e.file e.mtime).map
        (fun i => ⟨i, sizeMb100 e.size⟩))
  else []

/-- The projection returned by the query endpoints (`filename` carries the
`unique_path`; `timestamp` stands for the ISO string, order-isomorphic). -/
structure VideoProj where
  camera_id : Str
  date : Str
  filename : Str
  timestamp : Int
  size_mb100 : Nat
deriving DecidableEq

/-- The dictionary appended per matching video in the query loops. -/
def projOf (r : ScanRec) : VideoProj :=
  ⟨r.info.camera_id, r.info.date, r.info.unique_path, r.info.timestamp, r.size_mb100⟩

/-- Python ASCII `str.lower` on the camera identifiers. -/
def lowerStr (l : Str) : Str := l.map Char.toLower

/-- `camera is None or video["camera_id"].lower() == camera.lower()`. -/
def camMatch (camera : Option Str) (cid : Str) : Bool :=
  match camera with
  | none => true
  | some c => decide (lowerStr cid = lowerStr c)

/-- Sort key order of `get_recent_videos` (timestamp descending). -/
def tsGe (a b : VideoProj) : Prop := b.timestamp ≤ a.timestamp

/-- Sort key order of `get_videos_by_date` (timestamp ascending). -/
def tsLe (a b : VideoProj) : Prop := a.timestamp ≤ b.timestamp

instance : DecidableRel tsGe := fun a b => inferInstanceAs (Decidable (b.timestamp ≤ a.timestamp))

instance : DecidableRel tsLe := fun a b => inferInstanceAs (Decidable (a.timestamp ≤ b.timestamp))

instance : IsTotal VideoProj tsGe := ⟨fun a b => le_total b.timestamp a.timestamp⟩

instance : IsTotal VideoProj tsLe := ⟨fun a b => le_total a.timestamp b.timestamp⟩

instance : IsTrans VideoProj tsGe := ⟨fun _ _ _ h1 h2 => le_trans h2 h1⟩

instance : IsTrans VideoProj tsLe := ⟨fun _ _ _ h1 h2 => le_trans h1 h2⟩

/-- `timedelta(hours=h)` overflows (`OverflowError`) when its normalised
`days = (3600*h) // 86400` leaves `[-999999999, 999999999]`. -/
def tdOverflow (h : Int) : Bool :=
  decide (Int.fdiv (3600 * h) 86400 < -999999999 ∨ 999999999 < Int.fdiv (3600 * h) 86400)

/-- The latest representable `datetime` (9999-12-31 23:59:59.999999) on the
microsecond timeline; `datetime - timedelta` raises when it leaves
`[0, MAXUS]`. -/
def MAXUS : Int := (toSecs ⟨9999, 12, 31, 23, 59, 59⟩ : Int) * 1000000 + 999999

/-- `get_recent_videos(hours=2, camera=None)`.  `hours` is `none` when the
query parameter is absent (FastAPI then applies the declared default `2`).
The `except` of the endpoint turns an `OverflowError` from
`datetime.now() - timedelta(hours=hours)` into a 500 response; nothing else
in the body raises.  Sorting is by the ISO timestamp string, descending,
order-isomorphic to the rational timestamp. -/
def recentCutoff (now : Int) (hours : Option Int) : Int :=
  now - 3600000000 * hours.getD 2

def get_recent_videos (fs : FS) (root : Str) (now : Int) (hours : Option Int)
    (camera : Option Str) : Except Nat (List VideoProj) :=
  if tdOverflow (hours.getD 2) then .error 500
  else if recentCutoff now hours < 0 ∨ MAXUS < recentCutoff now hours then .error 500
  else
    .ok (List.insertionSort tsGe
      (((find_all_video_files fs root).filter
        (fun v => decide (recentCutoff now hours ≤ v.info.timestamp) &&
          camMatch camera v.info.camera_id)).map
        projOf))

/-- `get_videos_by_date(date, camera=None)`: exact string equality on the
folder date, ascending sort by the ISO timestamp string. -/
def get_videos_by_date (fs : FS) (root : Str) (date : Str)
    (camera : Option Str) : Except Nat (List VideoProj) :=
  .ok (List.insertionSort tsLe
    (((find_all_video_files fs root).filter
      (fun v => decide (v.info.date = date) && camMatch camera v.info.camera_id)).map
      projOf))

/-- Contents of the Python `set` of `(date, camera_id)` pairs, in
first-encounter order (CPython's set iteration order is unspecified; only
the set's contents, emptiness, and the per-camera sorted date lists are
relied on). -/
def dedupFirst : List (Str × Str) → List (Str × Str)
  | [] => []
  | p :: ps => p :: (dedupFirst ps).filter (fun q => decide (q ≠ p))

/-- One step of the grouping loop: `if cam_id not in result:
result[cam_id] = []` followed by `result[cam_id].append(date_str)`, the
dict keyed in insertion order. -/
def addDate (res : List (Str × List Str)) (cam : Str) (d : Str) : List (Str × List Str) :=
  match res with
  | [] => [(cam, [d])]
  | (c, ds) :: rest =>
    if c = cam then (c, ds ++ [d]) :: rest else (c, ds) :: addDate rest cam d

/-- Python string `<`: lexicographic by code point. -/
def strLt : Str → Str → Bool
  | [], [] => false
  | [], _ :: _ => true
  | _ :: _, [] => false
  | a :: as, b :: bs => if a < b then true else if b < a then false else strLt as bs

/-- Order of `result[cam_id].sort(reverse=True)`: string `≥`. -/
def dateDesc (a b : Str) : Prop := strLt a b = false

instance : DecidableRel dateDesc := fun a b => inferInstanceAs (Decidable (strLt a b = false))

/-- `get_available_dates(camera=None)`: collect the set of
`(date, camera_id)` pairs passing the camera filter, group them into a
mapping camera → dates in encounter order, and sort each camera's dates
descending (Python string sort, which on the date strings is chronological).
Nothing in the body raises, so the endpoint's `except` never fires. -/
def get_available_dates (fs : FS) (root : Str) (camera : Option Str) :
    Except Nat (List (Str × List Str)) :=
  .ok (((dedupFirst (((find_all_video_files fs root).filter
      (fun v => camMatch camera v.info.camera_id)).map
      (fun v => (v.info.date, v.info.camera_id)))).foldl
      (fun res p => addDate res p.2 p.1) []).map
      (fun g => (g.1, List.insertionSort dateDesc g.2)))

/-- `get_physical_path`: replace the `'__'` separator by `os.sep` and join
with the configured root. -/
def get_physical_path (root uid : Str) : Str := osJoin root (decSep uid)

/-- Responses of the file-access endpoints. -/
inductive Resp where
  | file (path media : Str)
  | fileDl (path media dlname : Str)
  | notFound (status : Nat) (detail : Str)
deriving DecidableEq

/-- `stream_video(unique_path)`. -/
def stream_video (root : Str) (fs : FS) (uid : Str) : Resp :=
  let fp := get_physical_path root uid
  if fs.isFile fp then .file fp (str "video/mp4")
  else .notFound 404 (str "Video no encontrado: " ++ uid)

/-- `download_video(unique_path)`; the download name is
`os.path.basename(uid).replace('__', os.sep).split(os.sep)[-1]`. -/
def download_video (root : Str) (fs : FS) (uid : Str) : Resp :=
  let fp := get_physical_path root uid
  if fs.isFile fp then
    .fileDl fp (str "video/mp4") (afterLastSlash (decSep (afterLastSlash uid)))
  else .notFound 404 (str "Video no encontrado: " ++ uid)

/-- The configured root directory of the source. -/
def VIDEO_ROOT_DIR : Str := str "/media/diego/camaras"

deriving instance DecidableEq for Except

/-- A filesystem holding `/etc/passwd` (outside any plausible root). -/
def fsEvil : FS := ⟨true, [], fun p => decide (p = str "/etc/passwd")⟩

/-- Timeline position of 2025-12-08 12:00:00, a sample "now". -/
def NOWUS : Int := (toSecs ⟨2025, 12, 8, 12, 0, 0⟩ : Int) * 1000000

/-- A recording with an embedded filename timestamp. -/
def entW : Entry := ⟨str "Cam1_2025-12-08", str "2025-12-08_17-46-33.mp4", 0, 5242880⟩

/-- A recording whose embedded filename date differs from its folder date. -/
def entW8 : Entry := ⟨str "Cam1_2025-12-08", str "2025-12-09_10-00-00.mp4", 0, 100⟩

/-- A recording with no embedded timestamp, modified at `NOWQ`. -/
def entNow : Entry := ⟨str "Cam1_2025-12-08", str "clip.mp4", NOWUS, 1000⟩

/-- Root present, one embedded-timestamp recording. -/
def fsW : FS := ⟨true, [entW], fun _ => false⟩

/-- Root present, one recording with mismatching embedded/folder dates. -/
def fsW8 : FS := ⟨true, [entW8], fun _ => false⟩

/-- Root present, one recording modified at `NOWQ`. -/
def fsNow : FS := ⟨true, [entNow], fun _ => false⟩

/-- Missing (or unreadable) root: the glob enumerates nothing. -/
def fsNoRoot : FS := ⟨false, [entW], fun _ => true⟩

/-- A filesystem whose only regular file is a text file under the root; the
scan listing is empty, so the index never contains it. -/
def fsTxt : FS :=
  ⟨true, [], fun p => decide (p = str "/media/diego/camaras/Cam9/notes.txt")⟩

/-- Same observable files as `fsTxt` but a different scan listing. -/
def fsTxt2 : FS := ⟨true, [entW], fsTxt.isFile⟩

/-- A recording whose embedded timestamp matches the regex but fails
calendar/time validation (month 13, hour 25). -/
def entBad : Entry := ⟨str "Cam1_2025-12-08", str "2025-13-40_25-61-00.mp4", 0, 77⟩

/-- `fsW` plus the malformed-timestamp recording. -/
def fsBad : FS := ⟨true, [entW, entBad], fun _ => false⟩

/-- The record extracted from `entW` (mtime 0). -/
def recW : VideoRec :=
  ⟨str "Cam1", str "2025-12-08", (toSecs ⟨2025, 12, 8, 17, 46, 33⟩ : Int) * 1000000,
   str "2025-12-08_17-46-33.mp4", str "Cam1_2025-12-08__2025-12-08_17-46-33.mp4",
   str "/media/diego/camaras/Cam1_2025-12-08/2025-12-08_17-46-33.mp4"⟩

/-- The record extracted from `Cam1_2025-12-08/clip.mp4` at mtime 55. -/
def recN : VideoRec :=
  ⟨str "Cam1", str "2025-12-08", 55, str "clip.mp4", str "Cam1_2025-12-08__clip.mp4",
   str "/media/diego/camaras/Cam1_2025-12-08/clip.mp4"⟩

/-- The record extracted from the calendar-invalid folder `Cam1_2025-13-40`. -/
def rec1340 : VideoRec :=
  ⟨str "Cam1", str "2025-13-40", 0, str "clip.mp4", str "Cam1_2025-13-40__clip.mp4",
   str "/media/diego/camaras/Cam1_2025-13-40/clip.mp4"⟩

/-- The projection of `entW` as returned by the queries. -/
def projW : VideoProj :=
  ⟨str "Cam1", str "2025-12-08", str "Cam1_2025-12-08__2025-12-08_17-46-33.mp4",
   (toSecs ⟨2025, 12, 8, 17, 46, 33⟩ : Int) * 1000000, sizeMb100 5242880⟩

/-- The projection of `entW8`: `date` is the folder date 2025-12-08, the
timestamp is the embedded 2025-12-09 one. -/
def projW8 : VideoProj :=
  ⟨str "Cam1", str "2025-12-08", str "Cam1_2025-12-08__2025-12-09_10-00-00.mp4",
   (toSecs ⟨2025, 12, 9, 10, 0, 0⟩ : Int) * 1000000, sizeMb100 100⟩

/-- The projection of `entNow`. -/
def projNow : VideoProj :=
  ⟨str "Cam1", str "2025-12-08", str "Cam1_2025-12-08__clip.mp4", NOWUS, sizeMb100 1000⟩

theorem encSep_append (a b : Str) : encSep (a ++ b) = encSep a ++ encSep b := by
  induction a with
  | nil => simp [encSep]
  | cons c cs ih =>
    simp only [List.cons_append, encSep]
    split <;> simp [ih]

theorem encSep_of_not_mem (l : Str) (h : '/' ∉ l) : encSep l = l := by
  induction l with
  | nil => rfl
  | cons c cs ih =>
    have hc : ¬ c = '/' := fun hc => h (hc ▸ List.mem_cons_self c cs)
    have hcs : '/' ∉ cs := fun hm => h (List.mem_cons_of_mem c hm)
    simp [encSep, hc, ih hcs]

theorem decSep_of_noDU (l : Str) (h : hasDU l = false) : decSep l = l := by
  induction l with
  | nil => rfl
  | cons c cs ih =>
    cases cs with
    | nil => rfl
    | cons c2 cs2 =>
      by_cases hc : c = '_' ∧ c2 = '_'
      · simp [hasDU, hc] at h
      · have h2 : hasDU (c2 :: cs2) = false := by simpa [hasDU, hc] using h
        simp [decSep, hc, ih h2]

theorem decSep_sep (f : Str) : ∀ r : Str, hasDU f = false → lastCh f ≠ some '_' →
    decSep (f ++ '_' :: '_' :: r) = f ++ '/' :: decSep r := by
  induction f with
  | nil => intro r _ _; simp [decSep]
  | cons c cs ih =>
    intro r hdu hlast
    cases cs with
    | nil =>
      have hc : ¬ c = '_' := by simpa [lastCh] using hlast
      simp [decSep, hc]
    | cons c2 cs2 =>
      by_cases hc : c = '_' ∧ c2 = '_'
      · simp [hasDU, hc] at hdu
      · have h2 : hasDU (c2 :: cs2) = false := by simpa [hasDU, hc] using hdu
        have h3 : lastCh (c2 :: cs2) ≠ some '_' := by simpa [lastCh] using hlast
        have hih := ih r h2 h3
        simp only [List.cons_append] at hih ⊢
        simp [decSep, hc, hih]

theorem lastCh_append (a : Str) : ∀ b : Str, b ≠ [] → lastCh (a ++ b) = lastCh b := by
  induction a with
  | nil => intro b _; rfl
  | cons c cs ih =>
    intro b hb
    have hne : cs ++ b ≠ [] := fun hh => hb (List.append_eq_nil.mp hh).2
    obtain ⟨d, ds, hds⟩ := List.exists_cons_of_ne_nil hne
    calc lastCh (c :: cs ++ b) = lastCh (cs ++ b) := by
          rw [List.cons_append, hds]; rfl
      _ = lastCh b := ih b hb

theorem lastCh_mem (l : Str) : ∀ c : Char, lastCh l = some c → c ∈ l := by
  induction l with
  | nil => intro c h; simp [lastCh] at h
  | cons a cs ih =>
    intro c h
    cases cs with
    | nil =>
      simp [lastCh] at h
      simp [h]
    | cons b bs =>
      have : lastCh (b :: bs) = some c := h
      exact List.mem_cons_of_mem a (ih c this)

theorem osJoin_split (root f g : Str) (hf : f ≠ []) (hfh : f.head? ≠ some '/')
    (hfl : lastCh f ≠ some '/') (hg : g.head? ≠ some '/') :
    osJoin root (f ++ '/' :: g) = osJoin (osJoin root f) g := by
  obtain ⟨c, cs, rfl⟩ := List.exists_cons_of_ne_nil hf
  have hc : ¬ c = '/' := by simpa using hfh
  by_cases hr : root = []
  · subst hr
    have h1 : osJoin [] (c :: cs ++ '/' :: g) = c :: cs ++ '/' :: g := by
      simp [osJoin, hc]
    have h2 : osJoin [] (c :: cs) = c :: cs := by simp [osJoin, hc]
    have h3 : osJoin (c :: cs) g = (c :: cs) ++ '/' :: g := by
      simp [osJoin, hg, hfl]
    rw [h1, h2, h3]
  · by_cases hrl : lastCh root = some '/'
    · have h1 : osJoin root (c :: cs ++ '/' :: g) = root ++ (c :: cs ++ '/' :: g) := by
        simp [osJoin, hc, hr, hrl]
      have h2 : osJoin root (c :: cs) = root ++ c :: cs := by
        simp [osJoin, hc, hr, hrl]
      have h3 : osJoin (root ++ c :: cs) g = (root ++ c :: cs) ++ '/' :: g := by
        have hl : lastCh (root ++ c :: cs) = lastCh (c :: cs) :=
          lastCh_append root (c :: cs) (by simp)
        simp [osJoin, hg, hl, hfl]
      rw [h1, h2, h3]
      simp
    · have h1 : osJoin root (c :: cs ++ '/' :: g) = root ++ '/' :: (c :: cs ++ '/' :: g) := by
        simp [osJoin, hc, hr, hrl]
      have h2 : osJoin root (c :: cs) = root ++ '/' :: c :: cs := by
        simp [osJoin, hc, hr, hrl]
      have h3 : osJoin (root ++ '/' :: c :: cs) g = (root ++ '/' :: c :: cs) ++ '/' :: g := by
        have hl : lastCh (root ++ '/' :: c :: cs) = lastCh (c :: cs) := by
          rw [lastCh_append root ('/' :: c :: cs) (by simp)]; rfl
        simp [osJoin, hg, hl, hfl]
      rw [h1, h2, h3]
      simp

theorem strStarts_cam (folder : Str) (h : strStarts ['C', 'a', 'm'] folder = true) :
    ∃ rest, folder = 'C' :: 'a' :: 'm' :: rest := by
  cases folder with
  | nil => exact absurd h (by simp [strStarts])
  | cons x0 t0 =>
    cases t0 with
    | nil => exact absurd h (by simp [strStarts])
    | cons x1 t1 =>
      cases t1 with
      | nil => exact absurd h (by simp [strStarts])
      | cons x2 t2 =>
        simp only [strStarts, Bool.and_eq_true, beq_iff_eq] at h
        obtain ⟨h0, h1, h2, -⟩ := h
        exact ⟨t2, by rw [h0, h1, h2]⟩

theorem folderMatch_head (folder : Str) (x : Str × Str) (h : folderMatch folder = some x) :
    ∃ rest, folder = 'C' :: 'a' :: 'm' :: rest := by
  unfold folderMatch at h
  by_cases hs : strStarts ['C', 'a', 'm'] folder = true
  · exact strStarts_cam folder hs
  · rw [if_neg hs] at h
    exact Option.noConfusion h

theorem extract_shape (root folder file : Str) (mtime : Int) (rec : VideoRec)
    (h : extract_info_from_path root folder file mtime = some rec) :
    folderMatch folder = some (rec.camera_id, rec.date) ∧ rec.filename = file ∧
    rec.unique_path = encSep (osJoin folder file) ∧
    rec.full_path = osJoin (osJoin root folder) file := by
  unfold extract_info_from_path at h
  split at h
  · exact Option.noConfusion h
  · rename_i cid dstr hfm
    split at h
    · rename_i dp tp hts
      split at h
      · rename_i dt hsf
        injection h with h
        subst h
        exact ⟨hfm, rfl, rfl, rfl⟩
      · exact Option.noConfusion h
    · rename_i hts
      injection h with h
      subst h
      exact ⟨hfm, rfl, rfl, rfl⟩

theorem extract_none_of_bad_ts (root folder file : Str) (mtime : Int) (dp tp : Str)
    (hts : tsSearch file = some (dp, tp))
    (hbad : strptimeFull (dp ++ ' ' :: hyColon tp) = none) :
    extract_info_from_path root folder file mtime = none := by
  unfold extract_info_from_path
  split
  · rfl
  · rename_i cid dstr hfm
    simp only [hts, hbad]

theorem extract_ts_of_good (root folder file : Str) (mtime : Int) (dp tp : Str) (dt : DT6)
    (hts : tsSearch file = some (dp, tp))
    (hgood : strptimeFull (dp ++ ' ' :: hyColon tp) = some dt) :
    (∀ rec : VideoRec, extract_info_from_path root folder file mtime = some rec →
      rec.timestamp = (toSecs dt : Int) * 1000000) ∧
    ∀ mtime2 : Int, extract_info_from_path root folder file mtime =
      extract_info_from_path root folder file mtime2 := by
  constructor
  · intro rec h
    unfold extract_info_from_path at h
    split at h
    · exact Option.noConfusion h
    · rename_i cid dstr hfm
      simp only [hts, hgood] at h
      injection h with h
      subst h
      rfl
  · intro mtime2
    unfold extract_info_from_path
    split
    · rfl
    · rename_i cid dstr hfm
      simp only [hts, hgood]

theorem extract_mtime_of_no_ts (root folder file : Str) (mtime : Int)
    (hts : tsSearch file = none) :
    ∀ rec : VideoRec, extract_info_from_path root folder file mtime = some rec →
      rec.timestamp = mtime := by
  intro rec h
  unfold extract_info_from_path at h
  split at h
  · exact Option.noConfusion h
  · rename_i cid dstr hfm
    simp only [hts] at h
    injection h with h
    subst h
    rfl

theorem recent_ok_mem (fs : FS) (root : Str) (now : Int) (hours : Option Int)
    (camera : Option Str) (r : List VideoProj)
    (hok : get_recent_videos fs root now hours camera = .ok r) :
    ∀ p ∈ r, ∃ v ∈ find_all_video_files fs root, p = projOf v ∧
      recentCutoff now hours ≤ v.info.timestamp ∧
      camMatch camera v.info.camera_id = true := by
  unfold get_recent_videos at hok
  split at hok
  · exact Except.noConfusion hok
  · split at hok
    · exact Except.noConfusion hok
    · injection hok with hok
      subst hok
      intro p hp
      have hp2 := (List.perm_insertionSort tsGe _).mem_iff.mp hp
      obtain ⟨v, hv, rfl⟩ := List.mem_map.mp hp2
      have hvf := List.mem_filter.mp hv
      have hb := hvf.2
      rw [Bool.and_eq_true] at hb
      exact ⟨v, hvf.1, rfl, of_decide_eq_true hb.1, hb.2⟩

theorem recent_ok_sorted (fs : FS) (root : Str) (now : Int) (hours : Option Int)
    (camera : Option Str) (r : List VideoProj)
    (hok : get_recent_videos fs root now hours camera = .ok r) :
    List.Sorted tsGe r := by
  unfold get_recent_videos at hok
  split at hok
  · exact Except.noConfusion hok
  · split at hok
    · exact Except.noConfusion hok
    · injection hok with hok
      subst hok
      exact List.sorted_insertionSort tsGe _

theorem bydate_ok_mem (fs : FS) (root : Str) (date : Str) (camera : Option Str)
    (r : List VideoProj)
    (hok : get_videos_by_date fs root date camera = .ok r) :
    ∀ p ∈ r, ∃ v ∈ find_all_video_files fs root, p = projOf v ∧
      v.info.date = date ∧ camMatch camera v.info.camera_id = true := by
  unfold get_videos_by_date at hok
  injection hok with hok
  subst hok
  intro p hp
  have hp2 := (List.perm_insertionSort tsLe _).mem_iff.mp hp
  obtain ⟨v, hv, rfl⟩ := List.mem_map.mp hp2
  have hvf := List.mem_filter.mp hv
  have hb := hvf.2
  rw [Bool.and_eq_true] at hb
  exact ⟨v, hvf.1, rfl, of_decide_eq_true hb.1, hb.2⟩

theorem bydate_ok_sorted (fs : FS) (root : Str) (date : Str) (camera : Option Str)
    (r : List VideoProj)
    (hok : get_videos_by_date fs root date camera = .ok r) :
    List.Sorted tsLe r := by
  unfold get_videos_by_date at hok
  injection hok with hok
  subst hok
  exact List.sorted_insertionSort tsLe _

theorem camMatch_some (c cid : Str) (h : camMatch (some c) cid = true) :
    lowerStr cid = lowerStr c := of_decide_eq_true h

theorem find_all_skip (fs1 fs2 : FS) (root : Str) (e : Entry)
    (l1 l2 : List Entry) (hb : fs1.rootExists = fs2.rootExists)
    (hfi : fs1.listing = l1 ++ e :: l2) (hfi2 : fs2.listing = l1 ++ l2)
    (hnone : extract_info_from_path root e.folder e.file e.mtime = none) :
    find_all_video_files fs1 root = find_all_video_files fs2 root := by
  unfold find_all_video_files
  rw [hb, hfi, hfi2]
  cases h2 : fs2.rootExists
  · simp
  · rw [if_pos rfl, if_pos rfl, List.filter_append, List.filter_append,
      List.filter_cons, List.filterMap_append, List.filterMap_append]
    by_cases hC : (glob_folder_ok e.folder && glob_file_ok e.file) = true
    · rw [if_pos hC, List.filterMap_cons]
      simp [hnone]
    · rw [if_neg hC]

theorem takeWhile_of_all (p : Char → Bool) (l : Str) :
    ∀ t : Str, (∀ c ∈ l, p c = true) → (l ++ t).takeWhile p = l ++ t.takeWhile p := by
  induction l with
  | nil => intro t _; rfl
  | cons c cs ih =>
    intro t h
    have hc : p c = true := h c (List.mem_cons_self c cs)
    have hcs : ∀ x ∈ cs, p x = true := fun x hx => h x (List.mem_cons_of_mem c hx)
    simp [List.takeWhile_cons, hc, ih t hcs]

theorem dropWhile_of_all (p : Char → Bool) (l : Str) :
    ∀ t : Str, (∀ c ∈ l, p c = true) → (l ++ t).dropWhile p = t.dropWhile p := by
  induction l with
  | nil => intro t _; rfl
  | cons c cs ih =>
    intro t h
    have hc : p c = true := h c (List.mem_cons_self c cs)
    have hcs : ∀ x ∈ cs, p x = true := fun x hx => h x (List.mem_cons_of_mem c hx)
    simp [List.dropWhile_cons, hc, ih t hcs]

theorem folderMatch_exact (ds : Str) (a1 a2 a3 a4 b1 b2 c1 c2 : Char) (rest : Str)
    (hds : ds ≠ []) (hall : ∀ c ∈ ds, c.isDigit = true)
    (h1 : a1.isDigit = true) (h2 : a2.isDigit = true) (h3 : a3.isDigit = true)
    (h4 : a4.isDigit = true) (h5 : b1.isDigit = true) (h6 : b2.isDigit = true)
    (h7 : c1.isDigit = true) (h8 : c2.isDigit = true) :
    folderMatch ('C' :: 'a' :: 'm' ::
        (ds ++ '_' :: a1 :: a2 :: a3 :: a4 :: '-' :: b1 :: b2 :: '-' :: c1 :: c2 :: rest)) =
      some ('C' :: 'a' :: 'm' :: ds, [a1, a2, a3, a4, '-', b1, b2, '-', c1, c2]) := by
  have hu : ('_' :: a1 :: a2 :: a3 :: a4 :: '-' :: b1 :: b2 :: '-' :: c1 :: c2 ::
      rest).takeWhile Char.isDigit = [] := by
    simp [List.takeWhile_cons]
  have ht := takeWhile_of_all Char.isDigit ds
    ('_' :: a1 :: a2 :: a3 :: a4 :: '-' :: b1 :: b2 :: '-' :: c1 :: c2 :: rest) hall
  have hd := dropWhile_of_all Char.isDigit ds
    ('_' :: a1 :: a2 :: a3 :: a4 :: '-' :: b1 :: b2 :: '-' :: c1 :: c2 :: rest) hall
  have hdu : ('_' :: a1 :: a2 :: a3 :: a4 :: '-' :: b1 :: b2 :: '-' :: c1 :: c2 ::
      rest).dropWhile Char.isDigit = '_' :: a1 :: a2 :: a3 :: a4 :: '-' :: b1 :: b2 ::
      '-' :: c1 :: c2 :: rest := by
    simp [List.dropWhile_cons]
  have hstart : strStarts ['C', 'a', 'm'] ('C' :: 'a' :: 'm' ::
      (ds ++ '_' :: a1 :: a2 :: a3 :: a4 :: '-' :: b1 :: b2 :: '-' :: c1 :: c2 :: rest)) =
      true := by
    simp [strStarts]
  unfold folderMatch
  rw [if_pos hstart]
  show camTail (ds ++ '_' :: a1 :: a2 :: a3 :: a4 :: '-' :: b1 :: b2 :: '-' :: c1 :: c2 ::
    rest) = _
  unfold camTail
  rw [ht, hu, List.append_nil, hd, hdu]
  simp [hds, h1, h2, h3, h4, h5, h6, h7, h8]

theorem noSlash_head (l : Str) (h : noSlash l = true) : l.head? ≠ some '/' := by
  cases l with
  | nil => simp
  | cons c cs =>
    have hm := of_decide_eq_true h
    intro hc
    rw [List.head?_cons] at hc
    injection hc with hc
    exact hm (by rw [← hc]; exact List.mem_cons_self c cs)

theorem noSlash_last (l : Str) (h : noSlash l = true) : lastCh l ≠ some '/' := by
  intro hl
  exact of_decide_eq_true h (lastCh_mem l '/' hl)

theorem osJoin_plain (a b : Str) (ha : a ≠ []) (hal : lastCh a ≠ some '/')
    (hb : b.head? ≠ some '/') : osJoin a b = a ++ '/' :: b := by
  simp [osJoin, hb, ha, hal]

/-- C1: the claim says a `unique_id` whose decoding escapes the configured
root is answered with a not-found error, never served.  The code has no
containment check: the `unique_id` `__etc__passwd` decodes to the absolute
path `/etc/passwd`, `os.path.join` discards the root for an absolute second
component, and when that file exists `stream_video` serves it although it
lies outside the root.  This theorem evaluates the model at that failing
input. -/
theorem C1_traversal_served :
    get_physical_path VIDEO_ROOT_DIR (str "__etc__passwd") = str "/etc/passwd" ∧
    fsEvil.isFile (str "/etc/passwd") = true ∧
    stream_video VIDEO_ROOT_DIR fsEvil (str "__etc__passwd") =
      Resp.file (str "/etc/passwd") (str "video/mp4") ∧
    underRoot VIDEO_ROOT_DIR (str "/etc/passwd") = false := by
  decide

/-- C2 counterexample: for the scanned record of `Cam1_2025-12-08/a__b.mp4`
(whose base filename contains the separator sequence `__`), decoding its
`unique_id` does not reproduce the record's physical path, so
`get_physical_path` is not a left-inverse of the encoding on all records. -/
theorem C2_counterexample :
    (extract_info_from_path VIDEO_ROOT_DIR (str "Cam1_2025-12-08") (str "a__b.mp4") 0).map
      (fun r => decide (get_physical_path VIDEO_ROOT_DIR r.unique_path = r.full_path)) =
      some false := by
  decide

/-- C2 (amended): decoding the `unique_id` reproduces the record's physical
path exactly, provided neither the folder name nor the base filename
contains the separator sequence `__` and the folder name does not end in
`_` (both restrictions are forced by counterexamples: a `__` in a component,
or a trailing `_` on the folder, makes the fixed-separator join ambiguous). -/
theorem C2_unique_id_left_inverse (root folder file : Str) (mtime : Int) (rec : VideoRec)
    (hfol : noSlash folder = true) (hfdu : hasDU folder = false)
    (hflu : lastCh folder ≠ some '_')
    (hfil : noSlash file = true) (hfidu : hasDU file = false)
    (hext : extract_info_from_path root folder file mtime = some rec) :
    get_physical_path root rec.unique_path = rec.full_path := by
  obtain ⟨hfm, -, huniq, hfull⟩ := extract_shape root folder file mtime rec hext
  obtain ⟨rest, hfolder⟩ := folderMatch_head folder _ hfm
  have hne : folder ≠ [] := by rw [hfolder]; simp
  have hhead : folder.head? ≠ some '/' := by rw [hfolder]; simp
  have hlast : lastCh folder ≠ some '/' := noSlash_last folder hfol
  have hfhead : file.head? ≠ some '/' := noSlash_head file hfil
  have hjoin : osJoin folder file = folder ++ '/' :: file :=
    osJoin_plain folder file hne hlast hfhead
  have henc : encSep (osJoin folder file) = folder ++ '_' :: '_' :: file := by
    rw [hjoin, show folder ++ '/' :: file = folder ++ ('/' :: file) from rfl,
      encSep_append, encSep_of_not_mem folder (of_decide_eq_true hfol)]
    have : encSep ('/' :: file) = '_' :: '_' :: encSep file := by simp [encSep]
    rw [this, encSep_of_not_mem file (of_decide_eq_true hfil)]
  have hdec : decSep (folder ++ '_' :: '_' :: file) = folder ++ '/' :: file := by
    rw [decSep_sep folder file hfdu hflu, decSep_of_noDU file hfidu]
  rw [huniq, hfull, get_physical_path, henc, hdec,
    osJoin_split root folder file hne hhead hlast hfhead]

/-- C2 witness: the amended left-inverse law at a concrete clean record. -/
theorem C2_unique_id_left_inverse_witness :
    extract_info_from_path VIDEO_ROOT_DIR (str "Cam1_2025-12-08") (str "clip.mp4") 55 =
      some recN ∧
    get_physical_path VIDEO_ROOT_DIR recN.unique_path = recN.full_path :=
  ⟨by decide,
   C2_unique_id_left_inverse VIDEO_ROOT_DIR (str "Cam1_2025-12-08") (str "clip.mp4") 55 recN
     (by decide) (by decide) (by decide) (by decide) (by decide) (by decide)⟩

/-- C3 counterexample: with the root directory missing (`rootExists = false`)
the recent and by-date queries answer with a successful empty list — not a
distinct "index unavailable" error — indistinguishable from an existing root
with no matching recordings; the dates query likewise answers a successful
empty mapping. -/
theorem C3_counterexample :
    fsNoRoot.rootExists = false ∧
    get_recent_videos fsNoRoot VIDEO_ROOT_DIR NOWUS none none = .ok [] ∧
    get_available_dates fsNoRoot VIDEO_ROOT_DIR none = .ok [] ∧
    get_videos_by_date fsNoRoot VIDEO_ROOT_DIR (str "2025-12-08") none = .ok [] := by
  decide

/-- C3 (amended): a missing or unreadable root (`glob` enumerates nothing and
raises nothing) is silently treated as zero results: by-date always answers
successfully with the empty list, dates always answers successfully with the
empty mapping, and recent answers successfully with the empty list except
when the cutoff computation itself overflows (a 500 that is unrelated to the
root). -/
theorem C3_missing_root_empty_ok (fs : FS) (root : Str) (now : Int)
    (hours : Option Int) (date : Str) (camera : Option Str)
    (hroot : fs.rootExists = false) :
    get_videos_by_date fs root date camera = .ok [] ∧
    get_available_dates fs root camera = .ok [] ∧
    (get_recent_videos fs root now hours camera = .ok [] ∨
     get_recent_videos fs root now hours camera = .error 500) := by
  have hfa : find_all_video_files fs root = [] := by
    unfold find_all_video_files
    rw [hroot]
    rfl
  refine ⟨?_, ?_, ?_⟩
  · unfold get_videos_by_date
    rw [hfa]
    rfl
  · unfold get_available_dates
    rw [hfa]
    rfl
  · unfold get_recent_videos
    split
    · right; rfl
    · split
      · right; rfl
      · left; rw [hfa]; rfl

/-- C3 witness: the amended behaviour at the concrete missing-root state. -/
theorem C3_missing_root_empty_ok_witness :
    get_videos_by_date fsNoRoot VIDEO_ROOT_DIR (str "2025-12-08") none = .ok [] ∧
    get_available_dates fsNoRoot VIDEO_ROOT_DIR none = .ok [] ∧
    (get_recent_videos fsNoRoot VIDEO_ROOT_DIR NOWUS none none = .ok [] ∨
     get_recent_videos fsNoRoot VIDEO_ROOT_DIR NOWUS none none = .error 500) :=
  C3_missing_root_empty_ok fsNoRoot VIDEO_ROOT_DIR NOWUS none (str "2025-12-08") none
    (by decide)

/-- C4: when the timestamp pattern found in the base filename fails
calendar/time validation, the resolver yields no record, and a scan over a
listing containing that file returns exactly the records of the same listing
without it (the scan continues, the remaining valid records are kept). -/
theorem C4_malformed_timestamp_excluded (root folder file : Str) (mtime : Int)
    (dp tp : Str) (hts : tsSearch file = some (dp, tp))
    (hbad : strptimeFull (dp ++ ' ' :: hyColon tp) = none) :
    extract_info_from_path root folder file mtime = none ∧
    ∀ (fs1 fs2 : FS) (e : Entry) (l1 l2 : List Entry),
      fs1.rootExists = fs2.rootExists → e.folder = folder → e.file = file →
      e.mtime = mtime → fs1.listing = l1 ++ e :: l2 → fs2.listing = l1 ++ l2 →
      find_all_video_files fs1 root = find_all_video_files fs2 root := by
  have h1 := extract_none_of_bad_ts root folder file mtime dp tp hts hbad
  refine ⟨h1, ?_⟩
  intro fs1 fs2 e l1 l2 hb hef hefi hem hl1 hl2
  apply find_all_skip fs1 fs2 root e l1 l2 hb hl1 hl2
  rw [hef, hefi, hem]
  exact h1

/-- C4 witness: the month-13 hour-25 file `2025-13-40_25-61-00.mp4` is
excluded and the scan of a listing containing it equals the scan without
it. -/
theorem C4_malformed_timestamp_excluded_witness :
    extract_info_from_path VIDEO_ROOT_DIR (str "Cam1_2025-12-08")
      (str "2025-13-40_25-61-00.mp4") 0 = none ∧
    find_all_video_files fsBad VIDEO_ROOT_DIR = find_all_video_files fsW VIDEO_ROOT_DIR :=
  ⟨(C4_malformed_timestamp_excluded VIDEO_ROOT_DIR (str "Cam1_2025-12-08")
      (str "2025-13-40_25-61-00.mp4") 0 (str "2025-13-40") (str "25-61-00")
      (by decide) (by decide)).1,
   (C4_malformed_timestamp_excluded VIDEO_ROOT_DIR (str "Cam1_2025-12-08")
      (str "2025-13-40_25-61-00.mp4") 0 (str "2025-13-40") (str "25-61-00")
      (by decide) (by decide)).2 fsBad fsW entBad [entW] [] rfl rfl rfl rfl rfl rfl⟩

/-- C5: when the base filename contains the embedded pattern and it
validates, the record's timestamp is exactly that instant (the time
component's hyphens rewritten to colons before parsing) and the result does
not depend on the file's modification time; when there is no embedded
pattern, the record's timestamp is exactly the modification instant, not a
combination of the folder date with any default time. -/
theorem C5_timestamp_resolution (root folder file : Str) (mtime mtime2 : Int) :
    (∀ dp tp dt, tsSearch file = some (dp, tp) →
      strptimeFull (dp ++ ' ' :: hyColon tp) = some dt →
      extract_info_from_path root folder file mtime =
        extract_info_from_path root folder file mtime2 ∧
      ∀ rec : VideoRec, extract_info_from_path root folder file mtime = some rec →
        rec.timestamp = (toSecs dt : Int) * 1000000) ∧
    (tsSearch file = none →
      ∀ rec : VideoRec, extract_info_from_path root folder file mtime = some rec →
        rec.timestamp = mtime) := by
  constructor
  · intro dp tp dt hts hgood
    obtain ⟨ha, hb⟩ := extract_ts_of_good root folder file mtime dp tp dt hts hgood
    exact ⟨hb mtime2, ha⟩
  · intro hts
    exact extract_mtime_of_no_ts root folder file mtime hts

/-- C5 witness: the embedded-timestamp file resolves to 2025-12-08 17:46:33
independently of mtime (0 vs 999), and the plain file resolves to its
mtime 55. -/
theorem C5_timestamp_resolution_witness :
    extract_info_from_path VIDEO_ROOT_DIR (str "Cam1_2025-12-08")
        (str "2025-12-08_17-46-33.mp4") 0 =
      extract_info_from_path VIDEO_ROOT_DIR (str "Cam1_2025-12-08")
        (str "2025-12-08_17-46-33.mp4") 999 ∧
    recW.timestamp = (toSecs ⟨2025, 12, 8, 17, 46, 33⟩ : Int) * 1000000 ∧
    recN.timestamp = 55 :=
  ⟨((C5_timestamp_resolution VIDEO_ROOT_DIR (str "Cam1_2025-12-08")
      (str "2025-12-08_17-46-33.mp4") 0 999).1 (str "2025-12-08") (str "17-46-33")
      ⟨2025, 12, 8, 17, 46, 33⟩ (by decide) (by decide)).1,
   ((C5_timestamp_resolution VIDEO_ROOT_DIR (str "Cam1_2025-12-08")
      (str "2025-12-08_17-46-33.mp4") 0 999).1 (str "2025-12-08") (str "17-46-33")
      ⟨2025, 12, 8, 17, 46, 33⟩ (by decide) (by decide)).2 recW (by decide),
   (C5_timestamp_resolution VIDEO_ROOT_DIR (str "Cam1_2025-12-08")
      (str "clip.mp4") 55 0).2 (by decide) recN (by decide)⟩

/-- C6 counterexample: the folder `Cam1_2025-13-40`, whose date token fails
calendar validation (month 13, day 40), still produces a record — the date
token is kept as a matched string and never parsed as a calendar date. -/
theorem C6_counterexample :
    extract_info_from_path VIDEO_ROOT_DIR (str "Cam1_2025-13-40") (str "clip.mp4") 0 =
      some rec1340 := by
  decide

/-- C6 (amended): for a first path segment matching `Cam<digits>_<YYYY-MM-DD>`
the resolver extracts `camera_id` equal to the camera token and `folder_date`
equal to the date token exactly — but the date token is kept as the matched
string without calendar validation, so a calendar-invalid token such as
`2025-13-40` still produces a record. -/
theorem C6_folder_tokens (ds : Str) (a1 a2 a3 a4 b1 b2 c1 c2 : Char)
    (rest file : Str) (mtime : Int) (root : Str)
    (hds : ds ≠ []) (hall : ∀ c ∈ ds, c.isDigit = true)
    (h1 : a1.isDigit = true) (h2 : a2.isDigit = true) (h3 : a3.isDigit = true)
    (h4 : a4.isDigit = true) (h5 : b1.isDigit = true) (h6 : b2.isDigit = true)
    (h7 : c1.isDigit = true) (h8 : c2.isDigit = true) :
    folderMatch ('C' :: 'a' :: 'm' ::
        (ds ++ '_' :: a1 :: a2 :: a3 :: a4 :: '-' :: b1 :: b2 :: '-' :: c1 :: c2 :: rest)) =
      some ('C' :: 'a' :: 'm' :: ds, [a1, a2, a3, a4, '-', b1, b2, '-', c1, c2]) ∧
    (∀ rec : VideoRec,
      extract_info_from_path root ('C' :: 'a' :: 'm' ::
        (ds ++ '_' :: a1 :: a2 :: a3 :: a4 :: '-' :: b1 :: b2 :: '-' :: c1 :: c2 :: rest))
        file mtime = some rec →
      rec.camera_id = 'C' :: 'a' :: 'm' :: ds ∧
      rec.date = [a1, a2, a3, a4, '-', b1, b2, '-', c1, c2]) ∧
    extract_info_from_path VIDEO_ROOT_DIR (str "Cam1_2025-13-40") (str "clip.mp4") 0 =
      some rec1340 := by
  have hfm := folderMatch_exact ds a1 a2 a3 a4 b1 b2 c1 c2 rest hds hall
    h1 h2 h3 h4 h5 h6 h7 h8
  refine ⟨hfm, ?_, by decide⟩
  intro rec hext
  obtain ⟨hfm2, -, -, -⟩ := extract_shape _ _ _ _ _ hext
  rw [hfm] at hfm2
  injection hfm2 with hpair
  have hfst := congrArg Prod.fst hpair
  have hsnd := congrArg Prod.snd hpair
  exact ⟨hfst.symm, hsnd.symm⟩

/-- C6 witness: token extraction at the concrete folder `Cam1_2025-12-08`. -/
theorem C6_folder_tokens_witness :
    folderMatch (str "Cam1_2025-12-08") = some (str "Cam1", str "2025-12-08") ∧
    recN.camera_id = str "Cam1" ∧ recN.date = str "2025-12-08" :=
  ⟨(C6_folder_tokens ['1'] '2' '0' '2' '5' '1' '2' '0' '8' [] (str "clip.mp4") 55
      VIDEO_ROOT_DIR (by decide) (by decide) (by decide) (by decide) (by decide)
      (by decide) (by decide) (by decide) (by decide) (by decide)).1,
   ((C6_folder_tokens ['1'] '2' '0' '2' '5' '1' '2' '0' '8' [] (str "clip.mp4") 55
      VIDEO_ROOT_DIR (by decide) (by decide) (by decide) (by decide) (by decide)
      (by decide) (by decide) (by decide) (by decide) (by decide)).2.1 recN (by decide)).1,
   ((C6_folder_tokens ['1'] '2' '0' '2' '5' '1' '2' '0' '8' [] (str "clip.mp4") 55
      VIDEO_ROOT_DIR (by decide) (by decide) (by decide) (by decide) (by decide)
      (by decide) (by decide) (by decide) (by decide) (by decide)).2.1 recN (by decide)).2⟩

/-- C7: every projection returned by the recent query has a timestamp at or
after `now - hours` (the declared default 2 applying when `hours` is
absent), its camera id equals the filter case-insensitively when a filter is
given, and the returned sequence is non-increasing by timestamp. -/
theorem C7_recent_query (fs : FS) (root : Str) (now : Int) (hours : Option Int)
    (camera : Option Str) (r : List VideoProj)
    (hok : get_recent_videos fs root now hours camera = .ok r) :
    (∀ p ∈ r, recentCutoff now hours ≤ p.timestamp ∧
      ∀ c, camera = some c → lowerStr p.camera_id = lowerStr c) ∧
    List.Sorted tsGe r := by
  constructor
  · intro p hp
    obtain ⟨v, hv, rfl, hts, hcam⟩ := recent_ok_mem fs root now hours camera r hok p hp
    exact ⟨hts, fun c hc => camMatch_some c _ (hc ▸ hcam)⟩
  · exact recent_ok_sorted fs root now hours camera r hok

/-- C7 witness: the recent query on a one-recording filesystem, with and
without a case-insensitive camera filter. -/
theorem C7_recent_query_witness :
    get_recent_videos fsW VIDEO_ROOT_DIR NOWUS none none = .ok [projW] ∧
    recentCutoff NOWUS none ≤ projW.timestamp ∧
    List.Sorted tsGe [projW] ∧
    lowerStr projW.camera_id = lowerStr (str "CAM1") :=
  ⟨by decide,
   ((C7_recent_query fsW VIDEO_ROOT_DIR NOWUS none none [projW] (by decide)).1 projW
     (by decide)).1,
   (C7_recent_query fsW VIDEO_ROOT_DIR NOWUS none none [projW] (by decide)).2,
   ((C7_recent_query fsW VIDEO_ROOT_DIR NOWUS none (some (str "CAM1")) [projW]
     (by decide)).1 projW (by decide)).2 (str "CAM1") rfl⟩

/-- C8: every projection returned by the by-date query has `date` exactly
equal to the requested date (the folder date — never the embedded filename
date, as the concrete conjuncts show: the file with folder date 2025-12-08
and embedded date 2025-12-09 is returned for 2025-12-08 and not for
2025-12-09), the optional camera filter matches case-insensitively, and the
returned sequence is non-decreasing by timestamp. -/
theorem C8_by_date_query (fs : FS) (root : Str) (date : Str) (camera : Option Str)
    (r : List VideoProj)
    (hok : get_videos_by_date fs root date camera = .ok r) :
    (∀ p ∈ r, p.date = date ∧
      ∀ c, camera = some c → lowerStr p.camera_id = lowerStr c) ∧
    List.Sorted tsLe r ∧
    get_videos_by_date fsW8 VIDEO_ROOT_DIR (str "2025-12-08") none = .ok [projW8] ∧
    get_videos_by_date fsW8 VIDEO_ROOT_DIR (str "2025-12-09") none = .ok [] := by
  refine ⟨?_, bydate_ok_sorted fs root date camera r hok, by decide, by decide⟩
  intro p hp
  obtain ⟨v, hv, rfl, hdate, hcam⟩ := bydate_ok_mem fs root date camera r hok p hp
  exact ⟨hdate, fun c hc => camMatch_some c _ (hc ▸ hcam)⟩

/-- C8 witness: the by-date query at the mismatching embedded/folder-date
recording. -/
theorem C8_by_date_query_witness :
    get_videos_by_date fsW8 VIDEO_ROOT_DIR (str "2025-12-08") none = .ok [projW8] ∧
    projW8.date = str "2025-12-08" ∧
    List.Sorted tsLe [projW8] :=
  ⟨by decide,
   ((C8_by_date_query fsW8 VIDEO_ROOT_DIR (str "2025-12-08") none [projW8]
     (by decide)).1 projW8 (by decide)).1,
   (C8_by_date_query fsW8 VIDEO_ROOT_DIR (str "2025-12-08") none [projW8]
     (by decide)).2.1⟩

/-- C9 counterexample: an explicit non-positive `hours` is not replaced by
the configured default: with `hours = -1` the recording modified exactly at
`now` is excluded (the cutoff lies in the future), while the default and
`hours = 2` return it. -/
theorem C9_counterexample :
    get_recent_videos fsNow VIDEO_ROOT_DIR NOWUS (some (-1)) none = .ok [] ∧
    get_recent_videos fsNow VIDEO_ROOT_DIR NOWUS none none = .ok [projNow] ∧
    get_recent_videos fsNow VIDEO_ROOT_DIR NOWUS (some 2) none = .ok [projNow] := by
  decide

/-- C9 (amended): the declared default 2 applies only when `hours` is
absent; an explicit non-positive `hours` is used as-is, so the cutoff
`now - hours` lies at or after `now` and only records with timestamps at or
after `now` can be returned. -/
theorem C9_hours_default (fs : FS) (root : Str) (now : Int) (camera : Option Str) :
    get_recent_videos fs root now none camera =
      get_recent_videos fs root now (some 2) camera ∧
    ∀ h : Int, h ≤ 0 → ∀ (r : List VideoProj) (p : VideoProj),
      get_recent_videos fs root now (some h) camera = .ok r → p ∈ r →
      now ≤ p.timestamp := by
  constructor
  · rfl
  · intro h hh r p hok hp
    obtain ⟨v, hv, rfl, hts, -⟩ := recent_ok_mem fs root now (some h) camera r hok p hp
    have hcut : now ≤ recentCutoff now (some h) := by
      unfold recentCutoff
      have hmul : 3600000000 * h ≤ 0 :=
        mul_nonpos_of_nonneg_of_nonpos (by norm_num) hh
      simp only [Option.getD_some]
      linarith
    exact le_trans hcut hts

/-- C9 witness: the amended behaviour at `hours = 0` on the recording
modified exactly at `now`. -/
theorem C9_hours_default_witness :
    get_recent_videos fsNow VIDEO_ROOT_DIR NOWUS none none =
      get_recent_videos fsNow VIDEO_ROOT_DIR NOWUS (some 2) none ∧
    NOWUS ≤ projNow.timestamp :=
  ⟨(C9_hours_default fsNow VIDEO_ROOT_DIR NOWUS none).1,
   (C9_hours_default fsNow VIDEO_ROOT_DIR NOWUS none).2 0 le_rfl [projNow] projNow
     (by decide) (by decide)⟩

/-- C10: the stream and download endpoints serve the decoded path (with
media type `video/mp4`) exactly when that path is an existing regular file,
answer 404 otherwise, and their responses depend only on the
`os.path.exists`/`os.path.isfile` observations — never on the scanned
listing (membership in the index is not checked). -/
theorem C10_serve_iff_file (root : Str) (fs : FS) (uid : Str) :
    (stream_video root fs uid =
        Resp.file (get_physical_path root uid) (str "video/mp4") ↔
      fs.isFile (get_physical_path root uid) = true) ∧
    (fs.isFile (get_physical_path root uid) = false →
      stream_video root fs uid = Resp.notFound 404 (str "Video no encontrado: " ++ uid)) ∧
    (download_video root fs uid =
        Resp.fileDl (get_physical_path root uid) (str "video/mp4")
          (afterLastSlash (decSep (afterLastSlash uid))) ↔
      fs.isFile (get_physical_path root uid) = true) ∧
    (fs.isFile (get_physical_path root uid) = false →
      download_video root fs uid = Resp.notFound 404 (str "Video no encontrado: " ++ uid)) ∧
    ∀ fs2 : FS, fs2.isFile = fs.isFile →
      stream_video root fs2 uid = stream_video root fs uid ∧
      download_video root fs2 uid = download_video root fs uid := by
  refine ⟨?_, ?_, ?_, ?_, ?_⟩
  · cases hif : fs.isFile (get_physical_path root uid) <;>
      simp [stream_video, hif]
  · intro hif
    simp [stream_video, hif]
  · cases hif : fs.isFile (get_physical_path root uid) <;>
      simp [download_video, hif]
  · intro hif
    simp [download_video, hif]
  · intro fs2 h2
    constructor <;> simp [stream_video, download_video, h2]

/-- C10 witness: a text file inside the root is served as `video/mp4` by the
stream endpoint although the scan index is empty; a filesystem lacking the
file answers 404; and the response is unchanged under a different scan
listing with the same observable files. -/
theorem C10_serve_iff_file_witness :
    stream_video VIDEO_ROOT_DIR fsTxt (str "Cam9__notes.txt") =
      Resp.file (str "/media/diego/camaras/Cam9/notes.txt") (str "video/mp4") ∧
    find_all_video_files fsTxt VIDEO_ROOT_DIR = [] ∧
    stream_video VIDEO_ROOT_DIR fsEvil (str "Cam9__notes.txt") =
      Resp.notFound 404 (str "Video no encontrado: " ++ str "Cam9__notes.txt") ∧
    stream_video VIDEO_ROOT_DIR fsTxt2 (str "Cam9__notes.txt") =
      stream_video VIDEO_ROOT_DIR fsTxt (str "Cam9__notes.txt") :=
  ⟨(C10_serve_iff_file VIDEO_ROOT_DIR fsTxt (str "Cam9__notes.txt")).1.mpr (by decide),
   by decide,
   (C10_serve_iff_file VIDEO_ROOT_DIR fsEvil (str "Cam9__notes.txt")).2.1 (by decide),
   ((C10_serve_iff_file VIDEO_ROOT_DIR fsTxt (str "Cam9__notes.txt")).2.2.2.2 fsTxt2
     rfl).1⟩
